import Mathlib

/-
Verification of the core control components of the `track` telescope-pointing
package: the moving-average filter, the PID controller, the hybrid error-source
state machine, the blind error source's right-ascension error computation, the
tracker control loop (all from `track/control.py` and `track/errorsources.py`),
and the mount-model coordinate round trip (`track/model.py`).

Machine floats are modelled by exact rationals (ℚ) for the control-loop code
and by real numbers (ℝ) for the spherical trigonometry of the mount model.
External inputs of a control cycle (measured error, clock readings, mount slew
responses, camera detections) are supplied as explicit per-cycle input data.
-/

namespace Track

/-! ## MovingAverageFilter (track/control.py, class MovingAverageFilter)

State is the pair of deques `delay_line` and `sample_periods`; index 0 of each
list is the left end of the deque (the newest sample, `appendleft`). -/

structure MAFilter where
  delayLine : List ℚ
  samplePeriods : List ℚ
  deriving DecidableEq, Repr

/-- `MovingAverageFilter.reset`: clear both deques. -/
def mafReset (_s : MAFilter) : MAFilter := ⟨[], []⟩

/-- Index of the first element of `l` at which the running sum started at `acc`
exceeds `maxDepth`: this is `np.argmax(np.cumsum(sample_periods) > max_depth)`
on the path where such an element exists (the only path on which the code uses
it; when no element exceeds, this returns `l.length` so that the subsequent
`take` keeps everything, which is never reached under the guard). -/
def trimIndex (maxDepth : ℚ) : ℚ → List ℚ → ℕ
  | _, [] => 0
  | acc, p :: rest =>
    if maxDepth < acc + p then 0 else trimIndex maxDepth (acc + p) rest + 1

/-- `MovingAverageFilter.advance`: push the new sample at the front; if the
total of the periods exceeds `max_depth`, pop from the back everything from the
first index whose cumulative sum exceeds `max_depth`; output the mean of what
remains, or 0 when nothing remains. -/
def mafAdvance (maxDepth : ℚ) (s : MAFilter) (value samplePeriod : ℚ) :
    MAFilter × ℚ :=
  let dl := value :: s.delayLine
  let sp := samplePeriod :: s.samplePeriods
  let kept :=
    if maxDepth < sp.sum then
      let d := trimIndex maxDepth 0 sp
      (dl.take d, sp.take d)
    else (dl, sp)
  (⟨kept.1, kept.2⟩,
    if 0 < kept.1.length then kept.1.sum / (kept.1.length : ℚ) else 0)

/-! ## PIDController (track/control.py, class PIDController)

`time.perf_counter()` readings are inputs: `pidUpdate` receives the clock value
`now` of the call, and `_compute_update_period` becomes the `lastIterationTime`
bookkeeping below. -/

structure PIDGains where
  proportional : ℚ
  integral : ℚ
  derivative : ℚ
  derivativeFilterDepth : ℚ
  deriving DecidableEq, Repr

structure PIDState where
  integrator : ℚ
  errorPrev : Option ℚ
  lastIterationTime : Option ℚ
  derivativeFilter : MAFilter
  deriving DecidableEq, Repr

/-- The state set by `PIDController.__init__` / `reset`. -/
def pidInit : PIDState := ⟨0, none, none, ⟨[], []⟩⟩

/-- `PIDController.reset`. -/
def pidReset (_s : PIDState) : PIDState := pidInit

/-- `PIDController.clamp_integrator`:
`integrator = np.clip(integrator, -abs(rate), abs(rate))`. -/
def clampIntegrator (s : PIDState) (rate : ℚ) : PIDState :=
  { s with integrator := min (max s.integrator (-|rate|)) |rate| }

/-- Result of one `PIDController.update` call: the new controller state, the
returned slew rate, and whether the max-update-period warning was printed. -/
structure PIDResult where
  state : PIDState
  output : ℚ
  warned : Bool
  deriving DecidableEq, Repr

/-- `PIDController.update(error)` called at clock time `now`. -/
def pidUpdate (g : PIDGains) (maxUpdatePeriod : ℚ) (s : PIDState)
    (error : ℚ) (now : ℚ) : PIDResult :=
  match s.lastIterationTime with
  | none =>
    -- update period unknown: record the time and previous error, return P + I
    let s' := { s with lastIterationTime := some now, errorPrev := some error }
    ⟨s', g.proportional * error + s'.integrator, false⟩
  | some last =>
    let updatePeriod := now - last
    let propTerm := g.proportional * error
    -- integrator update, skipped with a printed warning on a stale period
    let integratorWarned : ℚ × Bool :=
      if maxUpdatePeriod < updatePeriod then (s.integrator, true)
      else (s.integrator + g.integral * error * updatePeriod, false)
    let integrator := integratorWarned.1
    let derivPair :=
      match s.errorPrev with
      | some errPrev =>
        let diff := (error - errPrev) / updatePeriod
        let adv := mafAdvance g.derivativeFilterDepth s.derivativeFilter diff
          updatePeriod
        (g.derivative * adv.2, adv.1)
      | none => ((0 : ℚ), s.derivativeFilter)
    let s' : PIDState :=
      { s with lastIterationTime := some now, integrator := integrator,
               derivativeFilter := derivPair.2, errorPrev := some error }
    ⟨s', propTerm + integrator + derivPair.1, integratorWarned.2⟩

/-! ## HybridErrorSource (track/errorsources.py, class HybridErrorSource)

`compute_error` first obtains the blind error (the blind source never raises
`NoSignal`), then attempts the optical error.  The optical attempt is an input:
`none` models `OpticalErrorSource.compute_error` raising `NoSignalException`
(which sets `consec_detect_frames = 0` and increments
`consec_no_detect_frames`), `some e` models it returning error `e` (which
increments `consec_detect_frames` and zeroes `consec_no_detect_frames`).
The divergence angle — `angle_between` of the optical target solution
(mount position plus optical error) and the blind (ephemeris) target solution,
both computed from this cycle's inputs — is likewise passed in. -/

structure HybridState where
  mode : String
  consecDetectFrames : ℕ
  consecNoDetectFrames : ℕ
  deriving DecidableEq, Repr

/-- `HybridErrorSource.compute_error`; `Except.error ()` is a raised
`NoSignalException`. -/
def hybridComputeError {α : Type} (maxDivergence : ℚ)
    (maxOpticalNoSignalFrames : ℕ) (s : HybridState) (blindError : α)
    (opticalError : Option α) (divergenceAngle : ℚ) :
    Except Unit (α × HybridState) :=
  match opticalError with
  | none =>
    let s1 := { s with consecDetectFrames := 0,
                       consecNoDetectFrames := s.consecNoDetectFrames + 1 }
    if s1.mode = "blind" then Except.ok (blindError, s1)
    else if maxOpticalNoSignalFrames ≤ s1.consecNoDetectFrames then
      Except.ok (blindError, { s1 with mode := "blind" })
    else Except.error ()
  | some optErr =>
    let s1 := { s with consecDetectFrames := s.consecDetectFrames + 1,
                       consecNoDetectFrames := 0 }
    let s2 :=
      if s1.mode = "blind" ∧ divergenceAngle < maxDivergence then
        { s1 with mode := "optical" }
      else if s1.mode = "optical" ∧ maxDivergence < divergenceAngle then
        { s1 with mode := "blind" }
      else s1
    Except.ok (if s2.mode = "blind" then blindError else optErr, s2)

/-! ## BlindErrorSource right-ascension error (track/errorsources.py)

The `axis == 'ra'` branch of `BlindErrorSource.compute_error`: the raw error
depends on the selected versus current meridian side (the current side is read
from the physical declination encoder `pdec`), and is then shifted by ±360° if
the implied motion would push the physical RA encoder `pra` outside [0°, 360°].

`wrap_error` lives in `track/mathutils.py`, which is not among the repository
files provided; it is modelled from the spec. -/

/-- Modelled from the spec: `wrap_error` (from the absent module
`track/mathutils.py`) wraps an angle in degrees into (−180°, +180°]. -/
def wrapError (x : ℚ) : ℚ := x - 360 * ((⌈x / 360 - 1/2⌉ : ℤ) : ℚ)

/-- The `axis == 'ra'` case of `BlindErrorSource.compute_error`, as a function
of the selected meridian side, the mount and (adjusted) target RA coordinates
in degrees, and the physical encoder readings `pra` and `pdec`. -/
def blindRaError (meridianSide : String) (mountRa targetRa pra pdec : ℚ) : ℚ :=
  let mountSide := if pdec < 180 then "east" else "west"
  let e :=
    if meridianSide = mountSide then wrapError (mountRa - targetRa)
    else wrapError (mountRa - targetRa + 180)
  if 360 < pra - e then e + 360
  else if pra - e < 0 then e - 360
  else e

/-! ## Mount model (track/model.py)

The mount model's transforms are spherical trigonometry executed by astropy;
they are embedded over ℝ.  Angles are degrees throughout, as in the source.
`t.sidereal_time('mean')` is an input `st` (the same `t` is passed to both
transforms of the round trip, so both see the same sidereal time).  astropy
pieces used by the source are embedded by their documented semantics:
`Longitude` wraps into [0°, 360°) (`wrap360`); `rotation_matrix(angle, axis)`
rotates the coordinate frame by `angle` about `axis`, which maps a vector to
its Rodrigues rotation by `-angle` (`rotAboutAxis`); and
`UnitSphericalRepresentation` of a cartesian unit vector has
`lon = arctan2(y, x)` and `lat = arcsin(z)` (`cartLon`, `cartLat`). -/

noncomputable section

def deg2rad (x : ℝ) : ℝ := x * (Real.pi / 180)

def rad2deg (x : ℝ) : ℝ := x * (180 / Real.pi)

def cosd (x : ℝ) : ℝ := Real.cos (deg2rad x)

def sind (x : ℝ) : ℝ := Real.sin (deg2rad x)

@[ext]
structure Vec3 where
  x : ℝ
  y : ℝ
  z : ℝ

def dot3 (a b : Vec3) : ℝ := a.x * b.x + a.y * b.y + a.z * b.z

/-- Rodrigues rotation of `v` by `θ` degrees about the axis `a` (a unit
vector): `cos θ • v + sin θ • (a × v) + (1 − cos θ)(a·v) • a`. -/
def rotAboutAxis (θ : ℝ) (a v : Vec3) : Vec3 :=
  ⟨cosd θ * v.x + sind θ * (a.y * v.z - a.z * v.y) + (1 - cosd θ) * dot3 a v * a.x,
   cosd θ * v.y + sind θ * (a.z * v.x - a.x * v.z) + (1 - cosd θ) * dot3 a v * a.y,
   cosd θ * v.z + sind θ * (a.x * v.y - a.y * v.x) + (1 - cosd θ) * dot3 a v * a.z⟩

/-- Cartesian unit vector of a spherical coordinate (degrees). -/
def sphToCart (lon lat : ℝ) : Vec3 :=
  ⟨cosd lat * cosd lon, cosd lat * sind lon, sind lat⟩

/-- Longitude in degrees of a cartesian point (`arctan2(y, x)`, realised as
the argument of the complex number `x + y·i`). -/
def cartLon (v : Vec3) : ℝ := rad2deg (Complex.arg ⟨v.x, v.y⟩)

/-- Latitude in degrees of a cartesian point on the unit sphere. -/
def cartLat (v : Vec3) : ℝ := rad2deg (Real.arcsin v.z)

/-- astropy `Longitude`: wrap an angle in degrees into [0°, 360°). -/
def wrap360 (x : ℝ) : ℝ := x - 360 * ((⌊x / 360⌋ : ℤ) : ℝ)

inductive MeridianSide
  | east
  | west
  deriving DecidableEq, Repr

/-- `MountEncoderPositions`: the pair of `Longitude` encoder readings. -/
structure MountEncoderPositions where
  enc0 : ℝ
  enc1 : ℝ

/-- `ModelParameters` (the four mount-model angles, degrees). -/
structure ModelParameters where
  axis0Offset : ℝ
  axis1Offset : ℝ
  poleRotAxisLon : ℝ
  poleRotAngle : ℝ

/-- `SkyCoord(axis_lon, 0*u.deg).represent_as('cartesian')`: the rotation
axis, a unit vector in the equatorial plane. -/
def rotAxisVec (axisLon : ℝ) : Vec3 := sphToCart axisLon 0

/-- `tip_axis(coord, axis_lon, rot_angle)`: rotate the frame by `rot_angle`
about the axis at longitude `axis_lon`, i.e. apply the Rodrigues rotation by
`-rot_angle` to the coordinate's cartesian vector, and convert back to a
spherical coordinate. -/
def tipAxis (lon lat axisLon rotAngle : ℝ) : ℝ × ℝ :=
  (cartLon (rotAboutAxis (-rotAngle) (rotAxisVec axisLon) (sphToCart lon lat)),
   cartLat (rotAboutAxis (-rotAngle) (rotAxisVec axisLon) (sphToCart lon lat)))

/-- `spherical_to_encoder` (track/model.py): Losmandy G11 conventions. -/
def sphericalToEncoder (lon lat : ℝ) (side : MeridianSide) :
    MountEncoderPositions :=
  match side with
  | .east => ⟨wrap360 (90 - lon), wrap360 (90 + lat)⟩
  | .west => ⟨wrap360 (270 - lon), wrap360 (270 - lat)⟩

/-- `encoder_to_spherical` (track/model.py). -/
def encoderToSpherical (e : MountEncoderPositions) : ℝ × ℝ :=
  if e.enc1 < 180 then (90 - e.enc0, e.enc1 - 90)
  else (270 - e.enc0, 270 - e.enc1)

/-- `MountModel.mount_to_world`: subtract the encoder offsets, map encoders to
the mount-frame spherical coordinate, tip the mount pole onto the celestial
pole, and convert hour angle to right ascension. -/
def mountToWorld (p : ModelParameters) (e : MountEncoderPositions) (st : ℝ) :
    ℝ × ℝ :=
  let ec : MountEncoderPositions :=
    ⟨wrap360 (e.enc0 - p.axis0Offset), wrap360 (e.enc1 - p.axis1Offset)⟩
  let ls := encoderToSpherical ec
  let lp := tipAxis ls.1 ls.2 p.poleRotAxisLon (-p.poleRotAngle)
  (st - lp.1, lp.2)

/-- `MountModel.world_to_mount`: hour angle from right ascension, tip the
celestial pole onto the mount pole, encoders from the mount-frame spherical
coordinate on the requested meridian side, add the encoder offsets. -/
def worldToMount (p : ModelParameters) (ra dec : ℝ) (side : MeridianSide)
    (st : ℝ) : MountEncoderPositions :=
  let lp := tipAxis (st - ra) dec p.poleRotAxisLon p.poleRotAngle
  let e := sphericalToEncoder lp.1 lp.2 side
  ⟨wrap360 (e.enc0 + p.axis0Offset), wrap360 (e.enc1 + p.axis1Offset)⟩

end

/-! ## Tracker (track/control.py, class Tracker)

The two mount axes.  Each control cycle's external inputs — the stop flag as
read at the top of the loop, the timer comparison, the outcome of
`error_source.compute_error()`, the registered callback's return value, the
`time.perf_counter()` readings inside the two `PIDController.update` calls,
and the `(accepted_rate, limit_exceeded)` pair returned by `mount.slew` for
each axis — are gathered in a `CycleInput`. -/

inductive Axis
  | axis0
  | axis1
  deriving DecidableEq, Repr

/-- A successful `compute_error()` result: the per-axis error components and
the magnitude (the three fields of `PointingError`), plus the value of
`error_source.state` during this cycle. -/
structure Meas where
  err : Axis → ℚ
  magnitude : ℚ
  sourceState : String

/-- The cached `self.error` value: `PointingError(None, None, None)` after
`NoSignalException`, otherwise three present components. -/
structure ErrCache where
  comp0 : Option ℚ
  comp1 : Option ℚ
  magnitude : Option ℚ

def measToError : Option Meas → ErrCache
  | some m => ⟨some (m.err Axis.axis0), some (m.err Axis.axis1), some m.magnitude⟩
  | none => ⟨none, none, none⟩

/-- Python truthiness of one `PointingError` component: `None` is falsy and an
`Angle` is truthy exactly when its value is nonzero. -/
def isTruthy : Option ℚ → Bool
  | none => false
  | some x => x != 0

/-- `any(self.error)`: some component of the cached error is truthy. -/
def anyError (e : ErrCache) : Bool :=
  isTruthy e.comp0 || isTruthy e.comp1 || isTruthy e.magnitude

structure CycleInput where
  stopFlag : Bool
  timerExpired : Bool
  measurement : Option Meas
  callbackResult : Bool
  pidNow : Axis → ℚ
  slewResult : Axis → ℚ × Bool

structure TrackerConfig where
  gains : PIDGains
  maxUpdatePeriod : ℚ
  stopWhenConverged : Bool
  convergeMaxErrorMag : ℚ
  convergeMinIterations : ℕ
  convergeErrorState : Option String
  stopOnTimer : Bool
  callbackRegistered : Bool

/-- Mutable state of a `Tracker`.  `lowErrorIterations` is the local variable
`low_error_iterations` of `run()`, lifted into the state so that the loop can
be expressed as a fold; `run()` zeroes it on entry. -/
structure TrackerState where
  controllers : Axis → PIDState
  controllerOutputs : Axis → ℚ
  slewRates : Axis → ℚ
  errCache : ErrCache
  numIterations : ℕ
  lowErrorIterations : ℕ

/-- `Tracker._finish_control_cycle`: publish telemetry (not modelled) and
increment the iteration counter. -/
def finishControlCycle (s : TrackerState) : TrackerState :=
  { s with numIterations := s.numIterations + 1 }

/-- The `low_error_iterations` accounting of one cycle that reached it. -/
def convergenceAccounting (cfg : TrackerConfig) (lowErr : ℕ) (m : Meas) : ℕ :=
  if cfg.convergeMaxErrorMag < m.magnitude then 0
  else
    match cfg.convergeErrorState with
    | none => lowErr + 1
    | some cs => if m.sourceState = cs then lowErr + 1 else 0

/-- The PID state of axis `a` right after the controller-update loop of a
cycle processing measurement `m` (before the slew loop may clamp it). -/
def cyclePidResult (cfg : TrackerConfig) (s : TrackerState) (inp : CycleInput)
    (m : Meas) (a : Axis) : PIDResult :=
  pidUpdate cfg.gains cfg.maxUpdatePeriod (s.controllers a) (m.err a)
    (inp.pidNow a)

/-- The body of one iteration of the `while` loop of `Tracker.run`, after the
three stop checks at the top have all failed. -/
def trackerCycle (cfg : TrackerConfig) (s : TrackerState) (inp : CycleInput) :
    TrackerState :=
  let s0 := { s with errCache := measToError inp.measurement }
  if cfg.callbackRegistered && inp.callbackResult then finishControlCycle s0
  else if !(anyError s0.errCache) then finishControlCycle s0
  else
    match inp.measurement with
    | none => finishControlCycle s0  -- unreachable: the sentinel is all-falsy
    | some m =>
      let s1 := { s0 with
        lowErrorIterations := convergenceAccounting cfg s0.lowErrorIterations m }
      -- update loop controllers
      let s2 := { s1 with
        controllers := fun a => (cyclePidResult cfg s inp m a).state,
        controllerOutputs := fun a => (cyclePidResult cfg s inp m a).output }
      -- set mount slew rates, clamping the integrator where a limit was hit
      let s3 := { s2 with
        slewRates := fun a => (inp.slewResult a).1,
        controllers := fun a =>
          if (inp.slewResult a).2 then
            clampIntegrator (s2.controllers a) (inp.slewResult a).1
          else s2.controllers a }
      finishControlCycle s3

/-- The `while` loop of `Tracker.run` over a finite stream of cycle inputs.
Returns the reason string (or `none` when the stream ran out with the loop
still going) together with the list of inputs consumed by fully executed
cycles, in order. -/
def trackerRunAux (cfg : TrackerConfig) :
    TrackerState → List CycleInput → Option String × List CycleInput
  | _, [] => (none, [])
  | s, inp :: rest =>
    if inp.stopFlag then (some "stop flag set", [])
    else if cfg.stopWhenConverged ∧
        cfg.convergeMinIterations ≤ s.lowErrorIterations then
      (some "converged", [])
    else if cfg.stopOnTimer ∧ inp.timerExpired then (some "timer expired", [])
    else
      let r := trackerRunAux cfg (trackerCycle cfg s inp) rest
      (r.1, inp :: r.2)

/-- `Tracker.run`: reset every controller, zero `low_error_iterations`, then
loop. -/
def trackerRun (cfg : TrackerConfig) (s : TrackerState)
    (inputs : List CycleInput) : Option String × List CycleInput :=
  trackerRunAux cfg
    { s with controllers := fun _ => pidInit, lowErrorIterations := 0 } inputs

/-! ## Derived cycle predicates and concrete scenarios -/

/-- A cycle input whose body gets past both skip guards of `Tracker.run`
(no callback hijack, some truthy error component): exactly these cycles run
the convergence accounting, the PID updates and the slew commands. -/
def processedCycle (cfg : TrackerConfig) (inp : CycleInput) : Bool :=
  !(cfg.callbackRegistered && inp.callbackResult) &&
    anyError (measToError inp.measurement)

/-- A processed cycle whose measurement keeps the convergence tally growing:
magnitude not above `converge_max_error_mag` and, when `converge_error_state`
is set, a matching `error_source.state`. -/
def goodCycle (cfg : TrackerConfig) (inp : CycleInput) : Bool :=
  processedCycle cfg inp &&
    (match inp.measurement with
     | some m =>
       !(decide (cfg.convergeMaxErrorMag < m.magnitude)) &&
         (match cfg.convergeErrorState with
          | none => true
          | some cs => m.sourceState == cs)
     | none => false)

/-- A cycle that carries a measurement of magnitude within
`converge_max_error_mag` (and matching state when one is required): the
reading of the spec's phrase "cycles with `|error| ≤ converge_max_error_mag`".
A no-measurement cycle never qualifies. -/
def lowErrorCycle (cfg : TrackerConfig) (inp : CycleInput) : Bool :=
  match inp.measurement with
  | some m =>
    decide (m.magnitude ≤ cfg.convergeMaxErrorMag) &&
      (match cfg.convergeErrorState with
       | none => true
       | some cs => m.sourceState == cs)
  | none => false

/-- What one cycle does to the `low_error_iterations` tally. -/
def cycleTally (cfg : TrackerConfig) (n : ℕ) (inp : CycleInput) : ℕ :=
  if processedCycle cfg inp then
    match inp.measurement with
    | some m => convergenceAccounting cfg n m
    | none => n  -- unreachable: a processed cycle carries a measurement
  else n

/-- A tracker state as first constructed (all controllers reset, counters 0). -/
def trackerInit : TrackerState :=
  ⟨fun _ => pidInit, fun _ => 0, fun _ => 0, ⟨none, none, none⟩, 0, 0⟩

/-- Measurement with 1° of error on each axis, magnitude 1°, blind state. -/
def measLow : Meas := ⟨fun _ => 1, 1, "blind"⟩

/-- Mount accepts every commanded rate (no limit flags). -/
def slewNoLimit : Axis → ℚ × Bool := fun _ => (0, false)

/-- A low-error cycle input at PID clock time `t`. -/
def inpLow (t : ℚ) : CycleInput :=
  ⟨false, false, some measLow, false, fun _ => t, slewNoLimit⟩

/-- A cycle input on which `compute_error` raised `NoSignal`. -/
def inpNoSignal (t : ℚ) : CycleInput :=
  ⟨false, false, none, false, fun _ => t, slewNoLimit⟩

/-- Tracker configuration of the convergence scenarios: stop on convergence
after 2 low-error iterations with threshold 2°, no required error state, no
timer, no callback. -/
def cfgC1 : TrackerConfig := ⟨⟨1, 1, 0, 1⟩, 1, true, 2, 2, none, false, false⟩

/-- Low-error cycle, no-signal cycle, low-error cycle, then one more input at
whose loop top the convergence test fires. -/
def traceC1 : List CycleInput :=
  [inpLow 0, inpNoSignal 1, inpLow 2, inpNoSignal 3]

/-- Two consecutive low-error cycles, then an input at whose loop top the
convergence test fires. -/
def traceC1good : List CycleInput := [inpLow 0, inpLow 1, inpNoSignal 2]

/-- Configuration for the axis-limit scenarios: no stop conditions armed. -/
def cfgC3 : TrackerConfig := ⟨⟨1, 1, 0, 1⟩, 1, false, 2, 50, none, false, false⟩

/-- A mid-run tracker state whose axis-0 controller holds integrator 5. -/
def stateC3 : TrackerState :=
  ⟨fun _ => ⟨5, none, none, ⟨[], []⟩⟩, fun _ => 0, fun _ => 0,
    ⟨none, none, none⟩, 0, 0⟩

/-- A cycle input with a 1° measurement where the mount clips both axes to an
accepted rate of 2°/s and reports the limit. -/
def inpC3 : CycleInput :=
  ⟨false, false, some measLow, false, fun _ => 0, fun _ => (2, true)⟩

/-- Measurement whose components and magnitude are all exactly zero. -/
def measZero : Meas := ⟨fun _ => 0, 0, "blind"⟩

/-- A cycle input carrying the all-zero measurement. -/
def inpZero : CycleInput :=
  ⟨false, false, some measZero, false, fun _ => 0, slewNoLimit⟩

/-- Gains used in the concrete stale-period PID scenario: P = 1, I = 40,
D = 0, derivative filter depth 0.1 s (the default depth). -/
def gainsC2 : PIDGains := ⟨1, 40, 0, 1/10⟩

/-- First `update(0.1°)` at t = 0 s (update period unknown). -/
def pidC2a : PIDResult := pidUpdate gainsC2 (1/10) pidInit (1/10) 0

/-- Second `update(0.2°)` at t = 0.05 s (period 0.05 s ≤ max 0.1 s). -/
def pidC2b : PIDResult := pidUpdate gainsC2 (1/10) pidC2a.state (2/10) (1/20)

/-- Third `update(0.2°)` at t = 0.55 s: the period is 0.5 s, five times the
`max_update_period` of 0.1 s. -/
def pidC2c : PIDResult := pidUpdate gainsC2 (1/10) pidC2b.state (2/10) (11/20)

/-! ## Supporting lemmas -/

/-- The spec-modelled `wrap_error` indeed lands in (−180°, +180°]. -/
theorem wrapError_mem_Ioc (x : ℚ) : -180 < wrapError x ∧ wrapError x ≤ 180 := by
  unfold wrapError
  have h1 : (⌈x / 360 - 1/2⌉ : ℚ) < x / 360 - 1/2 + 1 := Int.ceil_lt_add_one _
  have h2 : x / 360 - 1/2 ≤ (⌈x / 360 - 1/2⌉ : ℚ) := Int.le_ceil _
  constructor <;> nlinarith

/-- The sum of the kept prefix never exceeds the window: `trimIndex` is the
first index whose cumulative sum (started at `acc`) exceeds `maxDepth`, so the
strictly shorter prefix it keeps sums to at most `maxDepth`. -/
theorem trimIndex_take_sum (maxDepth : ℚ) :
    ∀ (l : List ℚ) (acc : ℚ), acc ≤ maxDepth →
      acc + (l.take (trimIndex maxDepth acc l)).sum ≤ maxDepth := by
  intro l
  induction l with
  | nil => intro acc hacc; simpa [trimIndex] using hacc
  | cons p rest ih =>
    intro acc hacc
    by_cases h : maxDepth < acc + p
    · simpa [trimIndex, h] using hacc
    · have := ih (acc + p) (not_lt.mp h)
      simp only [trimIndex, if_neg h, List.take_succ_cons, List.sum_cons]
      linarith

/-! ## Claim theorems -/

/-- Claim C8: after every `MovingAverageFilter.advance(value, sample_period)`
call the retained sample periods sum to at most `max_depth` plus the newest
sample's period, and after `reset()` a single `advance(v, p)` with
`p ≤ max_depth` returns exactly `v`. -/
theorem mafAdvance_window_bound_and_single_sample (maxDepth v p : ℚ)
    (s : Track.MAFilter) (hd : 0 ≤ maxDepth) (hp : 0 ≤ p) :
    (Track.mafAdvance maxDepth s v p).1.samplePeriods.sum ≤ maxDepth + p ∧
    (p ≤ maxDepth → (Track.mafAdvance maxDepth (Track.mafReset s) v p).2 = v) := by
  constructor
  · unfold Track.mafAdvance
    by_cases h : maxDepth < (p :: s.samplePeriods).sum
    · have hsum := trimIndex_take_sum maxDepth (p :: s.samplePeriods) 0 hd
      simp only [zero_add] at hsum
      simp only [h, if_pos, if_true]
      linarith
    · simp only [h, if_false]
      have := not_lt.mp h
      linarith
  · intro hple
    have hguard : ¬ maxDepth < p := not_lt.mpr hple
    unfold Track.mafReset Track.mafAdvance
    simp [hguard]

/-- Claim C2: a call whose measured period exceeds `max_update_period` does
warn and does leave the integrator unchanged, but — contrary to `update`'s own
docstring — it still mutates the derivative filter state and returns
P·error + integrator + D-term rather than the stored integrator value. -/
theorem pidUpdate_stale_period_behaviour :
    pidC2c.warned = true ∧
    pidC2c.state.integrator = pidC2b.state.integrator ∧
    pidC2c.state.derivativeFilter ≠ pidC2b.state.derivativeFilter ∧
    pidC2c.output ≠ pidC2c.state.integrator ∧
    pidC2c.output = 3/5 ∧ pidC2c.state.integrator = 2/5 := by
  have ha : pidC2a.state = ⟨0, some (1/10), some 0, ⟨[], []⟩⟩ := rfl
  have hb : pidC2b =
      ⟨⟨2/5, some (2/10), some (1/20), ⟨[2], [1/20]⟩⟩, 3/5, false⟩ := by
    unfold pidC2b
    rw [ha]
    norm_num [Track.pidUpdate, gainsC2, Track.mafAdvance, Track.trimIndex]
  have hc : pidC2c =
      ⟨⟨2/5, some (2/10), some (11/20), ⟨[], []⟩⟩, 3/5, true⟩ := by
    unfold pidC2c
    rw [hb]
    norm_num [Track.pidUpdate, gainsC2, Track.mafAdvance, Track.trimIndex]
  rw [hb, hc]
  norm_num

/-- Claim C5 counterexample: the blind source has produced a measurement
(error 1°), yet with the hybrid in the OPTICAL state and only one consecutive
optical no-detect frame (below the limit of 4), `compute_error` re-raises
`NoSignal` instead of returning an error vector. -/
theorem hybridComputeError_noSignal_despite_blind :
    Track.hybridComputeError (α := ℚ) 5 4 ⟨"optical", 0, 0⟩ 1 none 0 =
      Except.error () := by
  simp [Track.hybridComputeError]

/-- Claim C5 (amended): `HybridErrorSource.compute_error` fails with
`NoSignal` exactly when the optical source is unavailable, the state is not
BLIND, and the incremented no-detect frame count is still below
`max_optical_no_signal_frames`; in particular in the BLIND state a blind
measurement is always returned, but in the OPTICAL state the call can fail
even though the blind source produced a measurement. -/
theorem hybridComputeError_noSignal_iff {α : Type} (md : ℚ) (mf : ℕ)
    (s : Track.HybridState) (be : α) (optRes : Option α) (d : ℚ) :
    Track.hybridComputeError md mf s be optRes d = Except.error () ↔
      optRes = none ∧ s.mode ≠ "blind" ∧ s.consecNoDetectFrames + 1 < mf := by
  cases optRes with
  | none =>
    by_cases hb : s.mode = "blind"
    · simp [Track.hybridComputeError, hb]
    · by_cases hm : mf ≤ s.consecNoDetectFrames + 1
      · simp [Track.hybridComputeError, hb, hm, not_lt.mpr hm]
      · simp [Track.hybridComputeError, hb, hm, not_le.mp hm]
  | some o =>
    by_cases h1 : s.mode = "blind" ∧ d < md
    · simp [Track.hybridComputeError, h1]
    · by_cases h2 : s.mode = "optical" ∧ md < d
      · simp [Track.hybridComputeError, h1, h2]
      · simp [Track.hybridComputeError, h1, h2]

/-- Claim C6: when the optical source succeeds, the hybrid returns `ok`; a
BLIND state with divergence below `max_divergence` ends OPTICAL, an OPTICAL
state with divergence above `max_divergence` ends BLIND, and the returned
error is the optical one exactly when the final state is OPTICAL, else the
blind one. -/
theorem hybridComputeError_optical_transitions {α : Type} (md : ℚ) (mf : ℕ)
    (s : Track.HybridState) (be opt : α) (d : ℚ) :
    ∃ out s2, Track.hybridComputeError md mf s be (some opt) d =
        Except.ok (out, s2) ∧
      (s.mode = "blind" ∧ d < md → s2.mode = "optical") ∧
      (s.mode = "optical" ∧ md < d → s2.mode = "blind") ∧
      out = (if s2.mode = "blind" then be else opt) := by
  by_cases h1 : s.mode = "blind" ∧ d < md
  · refine ⟨opt, ⟨"optical", s.consecDetectFrames + 1, 0⟩, ?_, ?_, ?_, ?_⟩
    · simp [Track.hybridComputeError, h1]
    · intro _; rfl
    · intro hmode
      exact absurd (h1.1.symm.trans hmode.1) (by simp)
    · simp
  · by_cases h2 : s.mode = "optical" ∧ md < d
    · refine ⟨be, ⟨"blind", s.consecDetectFrames + 1, 0⟩, ?_, ?_, ?_, ?_⟩
      · simp [Track.hybridComputeError, h1, h2]
      · intro hmode
        exact absurd (h2.1.symm.trans hmode.1) (by simp)
      · intro _; rfl
      · simp
    · refine ⟨if s.mode = "blind" then be else opt,
        ⟨s.mode, s.consecDetectFrames + 1, 0⟩, ?_, ?_, ?_, ?_⟩
      · simp [Track.hybridComputeError, h1, h2]
      · intro hmode; exact absurd hmode h1
      · intro hmode; exact absurd hmode h2
      · rfl

/-- Claim C9: mount RA reading 359°, target RA 1°, mount on the preferred
meridian side (the side read from `pdec` matches the selected side), and the
±360° axis-limit shift not triggered (`pra − (−2°) ∈ [0°, 360°]`): the RA
error is `wrap_error(359 − 1) = −2°`, not +358°. -/
theorem blindRaError_wrap_shortest (ms : String) (pra pdec : ℚ)
    (hside : ms = if pdec < 180 then "east" else "west")
    (h1 : pra ≤ 358) (h2 : -2 ≤ pra) :
    Track.blindRaError ms 359 1 pra pdec = -2 ∧
    Track.wrapError (359 - 1) = -2 := by
  have hw : Track.wrapError (359 - 1) = -2 := by
    unfold Track.wrapError
    have hc : (⌈(359 - 1 : ℚ) / 360 - 1/2⌉ : ℤ) = 1 := by
      rw [Int.ceil_eq_iff]
      constructor <;> norm_num
    rw [hc]
    norm_num
  refine ⟨?_, hw⟩
  subst hside
  simp only [Track.blindRaError, hw, eq_self_iff_true, if_true]
  rw [if_neg (by linarith), if_neg (by linarith)]

/-- Claim C9 witness: west-pointing physical declination 200° with selected
side west, physical RA encoder at 270°. -/
theorem blindRaError_wrap_shortest_witness :
    Track.blindRaError "west" 359 1 270 200 = -2 ∧
    Track.wrapError (359 - 1) = -2 :=
  blindRaError_wrap_shortest "west" 270 200 (by norm_num) (by norm_num)
    (by norm_num)

/-- One cycle changes `low_error_iterations` exactly as `cycleTally` says. -/
theorem trackerCycle_lowErr (cfg : TrackerConfig) (s : TrackerState)
    (inp : CycleInput) :
    (trackerCycle cfg s inp).lowErrorIterations =
      cycleTally cfg s.lowErrorIterations inp := by
  cases hm : inp.measurement with
  | none =>
    cases hcb : cfg.callbackRegistered && inp.callbackResult <;>
      simp [trackerCycle, cycleTally, processedCycle, hm, hcb, measToError,
        anyError, isTruthy, finishControlCycle]
  | some m =>
    cases hcb : cfg.callbackRegistered && inp.callbackResult
    · cases hae : anyError (measToError (some m)) <;>
        simp [trackerCycle, cycleTally, processedCycle, hm, hcb, hae,
          finishControlCycle]
    · simp [trackerCycle, cycleTally, processedCycle, hm, hcb,
        finishControlCycle]

/-- Evaluation of `cycleTally` in terms of the cycle predicates: a good cycle
increments the tally, a processed non-good cycle zeroes it, an unprocessed
cycle leaves it alone. -/
theorem cycleTally_eval (cfg : TrackerConfig) (n : ℕ) (inp : CycleInput) :
    (goodCycle cfg inp = true → cycleTally cfg n inp = n + 1) ∧
    (processedCycle cfg inp = true → goodCycle cfg inp = false →
      cycleTally cfg n inp = 0) ∧
    (processedCycle cfg inp = false → cycleTally cfg n inp = n) := by
  refine ⟨?_, ?_, ?_⟩
  · intro hg
    unfold goodCycle at hg
    simp only [Bool.and_eq_true] at hg
    obtain ⟨hp, hgm⟩ := hg
    cases hm : inp.measurement with
    | none => rw [hm] at hgm; simp at hgm
    | some m =>
      rw [hm] at hgm
      simp only [Bool.and_eq_true, Bool.not_eq_true', decide_eq_false_iff_not]
        at hgm
      obtain ⟨hmag, hstate⟩ := hgm
      cases hcs : cfg.convergeErrorState with
      | none => simp [cycleTally, hp, hm, convergenceAccounting, hmag, hcs]
      | some cs =>
        rw [hcs] at hstate
        simp only [beq_iff_eq] at hstate
        simp [cycleTally, hp, hm, convergenceAccounting, hmag, hcs, hstate]
  · intro hp hg
    cases hm : inp.measurement with
    | none =>
      exfalso
      unfold processedCycle at hp
      rw [hm] at hp
      simp [measToError, anyError, isTruthy] at hp
    | some m =>
      unfold goodCycle at hg
      rw [hp, hm] at hg
      simp only [Bool.true_and] at hg
      by_cases hlt : cfg.convergeMaxErrorMag < m.magnitude
      · simp [cycleTally, hp, hm, convergenceAccounting, hlt]
      · rw [decide_eq_false hlt] at hg
        simp only [Bool.not_false, Bool.true_and] at hg
        cases hcs : cfg.convergeErrorState with
        | none => rw [hcs] at hg; simp at hg
        | some cs =>
          rw [hcs] at hg
          simp only [beq_eq_false_iff_ne, ne_eq] at hg
          simp [cycleTally, hp, hm, convergenceAccounting, hlt, hcs, hg]
  · intro hp
    simp [cycleTally, hp]

/-- Any run of the tally over a list splits at the last tally-zeroing cycle:
past that point every processed cycle is good, and the final tally is bounded
by the number of good cycles there (plus the starting tally when nothing was
ever zeroed). -/
theorem tally_split (cfg : TrackerConfig) :
    ∀ (l : List CycleInput) (n : ℕ),
      ∃ l1 l2, l = l1 ++ l2 ∧
        (∀ inp ∈ l2, processedCycle cfg inp = true → goodCycle cfg inp = true) ∧
        List.foldl (cycleTally cfg) n l ≤
          (if l1.isEmpty then n else 0) + (l2.filter (goodCycle cfg)).length := by
  intro l
  induction l with
  | nil => intro n; exact ⟨[], [], rfl, by simp, by simp⟩
  | cons inp rest ih =>
    intro n
    by_cases hbad : processedCycle cfg inp = true ∧ goodCycle cfg inp = false
    · obtain ⟨r1, r2, hsplit, hgood, hle⟩ := ih (cycleTally cfg n inp)
      refine ⟨inp :: r1, r2, by rw [List.cons_append, hsplit], hgood, ?_⟩
      have h0 : cycleTally cfg n inp = 0 :=
        (cycleTally_eval cfg n inp).2.1 hbad.1 hbad.2
      rw [List.foldl_cons, h0]
      rw [h0] at hle
      simp only [List.isEmpty_cons, if_false, Bool.false_eq_true]
      rcases Bool.eq_false_or_eq_true r1.isEmpty with hri | hri <;>
        rw [hri] at hle <;> simpa using hle
    · obtain ⟨r1, r2, hsplit, hgood, hle⟩ := ih (cycleTally cfg n inp)
      rcases Bool.eq_false_or_eq_true r1.isEmpty with hr | hr
      on_goal 2 =>
        refine ⟨inp :: r1, r2, by rw [List.cons_append, hsplit], hgood, ?_⟩
        rw [List.foldl_cons]
        rw [hr] at hle
        simp only [List.isEmpty_cons, Bool.false_eq_true, if_false]
        simpa using hle
      · have hr1 : r1 = [] := List.isEmpty_iff.mp hr
        subst hr1
        rw [List.nil_append] at hsplit
        refine ⟨[], inp :: r2, by rw [List.nil_append, hsplit], ?_, ?_⟩
        · intro i hi hp
          rcases List.mem_cons.mp hi with h | h
          · subst h
            rcases Bool.eq_false_or_eq_true (goodCycle cfg i) with hg | hg
            · exact hg
            · exact absurd ⟨hp, hg⟩ hbad
          · exact hgood i h hp
        · rw [List.foldl_cons]
          simp only [List.isEmpty_nil, if_true] at hle ⊢
          cases hg : goodCycle cfg inp
          · have hp : processedCycle cfg inp = false := by
              rcases Bool.eq_false_or_eq_true (processedCycle cfg inp)
                with hp | hp
              · exact absurd ⟨hp, hg⟩ hbad
              · exact hp
            have ht : cycleTally cfg n inp = n :=
              (cycleTally_eval cfg n inp).2.2 hp
            rw [ht] at hle ⊢
            calc List.foldl (cycleTally cfg) n rest
                ≤ n + (r2.filter (goodCycle cfg)).length := hle
              _ ≤ n + ((inp :: r2).filter (goodCycle cfg)).length := by
                  simp [List.filter_cons, hg]
          · have ht : cycleTally cfg n inp = n + 1 :=
              (cycleTally_eval cfg n inp).1 hg
            rw [ht] at hle ⊢
            calc List.foldl (cycleTally cfg) (n + 1) rest
                ≤ (n + 1) + (r2.filter (goodCycle cfg)).length := hle
              _ ≤ n + ((inp :: r2).filter (goodCycle cfg)).length := by
                  rw [List.filter_cons, hg]
                  simp only [if_true]
                  simp
                  omega

/-- If the loop returns "converged", `stop_when_converged` was armed and the
final tally over the executed cycles reached `converge_min_iterations`. -/
theorem runAux_converged_tally (cfg : TrackerConfig) :
    ∀ (inputs : List CycleInput) (s : TrackerState),
      (trackerRunAux cfg s inputs).1 = some "converged" →
      cfg.stopWhenConverged = true ∧
      cfg.convergeMinIterations ≤
        List.foldl (cycleTally cfg) s.lowErrorIterations
          (trackerRunAux cfg s inputs).2 := by
  intro inputs
  induction inputs with
  | nil => intro s h; simp [trackerRunAux] at h
  | cons inp rest ih =>
    intro s h
    unfold trackerRunAux at h ⊢
    by_cases h1 : inp.stopFlag = true
    · rw [if_pos h1] at h; simp at h
    · rw [if_neg h1] at h ⊢
      by_cases h2 : cfg.stopWhenConverged = true ∧
          cfg.convergeMinIterations ≤ s.lowErrorIterations
      · rw [if_pos h2] at h ⊢
        simpa using h2
      · rw [if_neg h2] at h ⊢
        by_cases h3 : cfg.stopOnTimer = true ∧ inp.timerExpired = true
        · rw [if_pos h3] at h; simp at h
        · rw [if_neg h3] at h ⊢
          obtain ⟨hs, hle⟩ := ih (trackerCycle cfg s inp) h
          refine ⟨hs, ?_⟩
          show cfg.convergeMinIterations ≤
            List.foldl (cycleTally cfg) s.lowErrorIterations
              (inp :: (trackerRunAux cfg (trackerCycle cfg s inp) rest).2)
          rw [List.foldl_cons, ← trackerCycle_lowErr]
          exact hle

/-- In a processed cycle whose slew response on axis `a` is `(r, true)`, that
axis's controller ends the cycle as its post-update PID state passed through
`clamp_integrator` with the accepted rate `r`. -/
theorem trackerCycle_controllers_limit (cfg : TrackerConfig) (s : TrackerState)
    (inp : CycleInput) (m : Meas) (a : Axis) (r : ℚ)
    (hm : inp.measurement = some m)
    (hcb : (cfg.callbackRegistered && inp.callbackResult) = false)
    (hany : anyError (measToError inp.measurement) = true)
    (hslew : inp.slewResult a = (r, true)) :
    (trackerCycle cfg s inp).controllers a =
      clampIntegrator (cyclePidResult cfg s inp m a).state r := by
  have hany2 : anyError (measToError (some m)) = true := hm ▸ hany
  unfold trackerCycle
  rw [hm]
  simp only [hcb, Bool.false_eq_true, if_false, hany2, Bool.not_true,
    finishControlCycle]
  rw [hslew]
  simp

/-- Claim C1 counterexample: with `converge_min_iterations = 2` this run
returns "converged", yet among the last 2 executed control cycles one produced
no error measurement at all — a `NoSignal` cycle does not reset the tally, so
the last cycles need not all have been low-error cycles. -/
theorem trackerRun_converged_gap :
    (trackerRun cfgC1 trackerInit traceC1).1 = some "converged" ∧
    ¬ (∀ inp ∈ (trackerRun cfgC1 trackerInit traceC1).2.drop
        ((trackerRun cfgC1 trackerInit traceC1).2.length -
          cfgC1.convergeMinIterations),
        lowErrorCycle cfgC1 inp = true) := by
  have h2 : (trackerRun cfgC1 trackerInit traceC1).2 =
      [inpLow 0, inpNoSignal 1, inpLow 2] := rfl
  refine ⟨rfl, ?_⟩
  intro hall
  have hmem : inpNoSignal 1 ∈ (trackerRun cfgC1 trackerInit traceC1).2.drop
      ((trackerRun cfgC1 trackerInit traceC1).2.length -
        cfgC1.convergeMinIterations) := by
    rw [h2]
    simp [cfgC1]
  have hfalse := hall (inpNoSignal 1) hmem
  simp [lowErrorCycle, inpNoSignal] at hfalse

/-- Claim C1 (amended): `run()` returns "converged" only if
`stop_when_converged` is set and, after the most recent tally-resetting cycle
(measured error above `converge_max_error_mag`, or mismatching
`converge_error_state`), at least `converge_min_iterations` executed cycles
carried a measurement within the threshold (and matching state); cycles with
no measurement, all-zero error, or a hijacking callback may be interspersed —
they neither count nor reset the tally. -/
theorem trackerRun_converged_amended (cfg : TrackerConfig) (s : TrackerState)
    (inputs : List CycleInput)
    (h : (trackerRun cfg s inputs).1 = some "converged") :
    cfg.stopWhenConverged = true ∧
    ∃ l1 l2, (trackerRun cfg s inputs).2 = l1 ++ l2 ∧
      (∀ inp ∈ l2, processedCycle cfg inp = true → goodCycle cfg inp = true) ∧
      cfg.convergeMinIterations ≤ (l2.filter (goodCycle cfg)).length := by
  unfold trackerRun at h ⊢
  obtain ⟨hs, hle⟩ := runAux_converged_tally cfg inputs _ h
  obtain ⟨l1, l2, hsplit, hgood, hb⟩ :=
    tally_split cfg (trackerRunAux cfg
      { s with controllers := fun _ => pidInit, lowErrorIterations := 0 }
      inputs).2 0
  refine ⟨hs, l1, l2, hsplit, hgood, ?_⟩
  have hle0 : cfg.convergeMinIterations ≤
      List.foldl (cycleTally cfg) 0 (trackerRunAux cfg
        { s with controllers := fun _ => pidInit, lowErrorIterations := 0 }
        inputs).2 := hle
  have hchain := le_trans hle0 hb
  simpa [ite_self] using hchain

/-- Claim C1 amended witness: a run of two consecutive low-error cycles under
`converge_min_iterations = 2` that does return "converged". -/
theorem trackerRun_converged_amended_witness :
    cfgC1.stopWhenConverged = true ∧
    ∃ l1 l2, (trackerRun cfgC1 trackerInit traceC1good).2 = l1 ++ l2 ∧
      (∀ inp ∈ l2, processedCycle cfgC1 inp = true →
        goodCycle cfgC1 inp = true) ∧
      cfgC1.convergeMinIterations ≤ (l2.filter (goodCycle cfgC1)).length :=
  trackerRun_converged_amended cfgC1 trackerInit traceC1good rfl

/-- Claim C3 counterexample: in a cycle where the mount reports an exceeded
limit with accepted rate 2°/s, the axis-0 integrator (previously 5) ends the
cycle at 2 — clamped to the accepted rate, not reset to zero. -/
theorem trackerCycle_limit_not_reset :
    ((trackerCycle cfgC3 stateC3 inpC3).controllers Axis.axis0).integrator
      = 2 ∧ (2 : ℚ) ≠ 0 := by
  constructor
  · norm_num [trackerCycle, cfgC3, stateC3, inpC3, measLow, measToError,
      anyError, isTruthy, finishControlCycle, cyclePidResult, pidUpdate,
      clampIntegrator, min_def, max_def]
  · norm_num

/-- Claim C3 (amended): the mount signals axis limits through the
`limit_exceeded` flag returned by `slew` (no exception reaches `Tracker.run`);
the Tracker handles it by passing the offending axis's post-update PID state
through `clamp_integrator` with the accepted rate — clamping, not zeroing, the
integrator — and the control loop continues with the next cycle. -/
theorem trackerRun_limit_clamps_and_continues (cfg : TrackerConfig)
    (s : TrackerState) (inp : CycleInput) (rest : List CycleInput) (m : Meas)
    (a : Axis) (r : ℚ)
    (hstop : inp.stopFlag = false)
    (hconv : ¬(cfg.stopWhenConverged = true ∧
      cfg.convergeMinIterations ≤ s.lowErrorIterations))
    (htimer : ¬(cfg.stopOnTimer = true ∧ inp.timerExpired = true))
    (hm : inp.measurement = some m)
    (hcb : (cfg.callbackRegistered && inp.callbackResult) = false)
    (hany : anyError (measToError inp.measurement) = true)
    (hslew : inp.slewResult a = (r, true)) :
    trackerRunAux cfg s (inp :: rest) =
      ((trackerRunAux cfg (trackerCycle cfg s inp) rest).1,
        inp :: (trackerRunAux cfg (trackerCycle cfg s inp) rest).2) ∧
    (trackerCycle cfg s inp).controllers a =
      clampIntegrator (cyclePidResult cfg s inp m a).state r := by
  constructor
  · conv_lhs => unfold trackerRunAux
    rw [if_neg (by simp [hstop]), if_neg hconv, if_neg htimer]
  · exact trackerCycle_controllers_limit cfg s inp m a r hm hcb hany hslew

/-- Claim C3 amended witness: concrete one-cycle run with integrator 5 and an
accepted rate of 2. -/
theorem trackerRun_limit_clamps_and_continues_witness :
    trackerRunAux cfgC3 stateC3 (inpC3 :: []) =
      ((trackerRunAux cfgC3 (trackerCycle cfgC3 stateC3 inpC3) []).1,
        inpC3 :: (trackerRunAux cfgC3 (trackerCycle cfgC3 stateC3 inpC3)
          []).2) ∧
    (trackerCycle cfgC3 stateC3 inpC3).controllers Axis.axis0 =
      clampIntegrator
        (cyclePidResult cfgC3 stateC3 inpC3 measLow Axis.axis0).state 2 :=
  trackerRun_limit_clamps_and_continues cfgC3 stateC3 inpC3 [] measLow
    Axis.axis0 2 rfl (by simp [cfgC3]) (by simp [cfgC3]) rfl rfl
    (by norm_num [inpC3, measLow, measToError, anyError, isTruthy]) rfl

/-- Claim C7: `clamp_integrator(r)` always leaves the integrator magnitude at
most |r|; consequently, in any cycle in which `mount.slew` reports
`limit_exceeded` on an axis with accepted rate `r`, that axis's integrator
ends the cycle with magnitude at most |r|. -/
theorem clampIntegrator_bounds (cfg : TrackerConfig) (s : TrackerState)
    (inp : CycleInput) (m : Meas) (a : Axis) (r : ℚ)
    (hm : inp.measurement = some m)
    (hcb : (cfg.callbackRegistered && inp.callbackResult) = false)
    (hany : anyError (measToError inp.measurement) = true)
    (hslew : inp.slewResult a = (r, true)) :
    (∀ (p : PIDState) (q : ℚ), |(clampIntegrator p q).integrator| ≤ |q|) ∧
    |((trackerCycle cfg s inp).controllers a).integrator| ≤ |r| := by
  have hclamp : ∀ (p : PIDState) (q : ℚ),
      |(clampIntegrator p q).integrator| ≤ |q| := by
    intro p q
    unfold clampIntegrator
    rw [abs_le]
    refine ⟨le_min (le_max_right _ _) ?_, min_le_right _ _⟩
    exact le_trans (neg_nonpos_of_nonneg (abs_nonneg q)) (abs_nonneg q)
  refine ⟨hclamp, ?_⟩
  rw [trackerCycle_controllers_limit cfg s inp m a r hm hcb hany hslew]
  exact hclamp _ r

/-- Claim C7 witness: the concrete limited cycle of the C3 scenario. -/
theorem clampIntegrator_bounds_witness :
    (∀ (p : PIDState) (q : ℚ), |(clampIntegrator p q).integrator| ≤ |q|) ∧
    |((trackerCycle cfgC3 stateC3 inpC3).controllers Axis.axis0).integrator|
      ≤ |(2 : ℚ)| :=
  clampIntegrator_bounds cfgC3 stateC3 inpC3 measLow Axis.axis0 2 rfl rfl
    (by norm_num [inpC3, measLow, measToError, anyError, isTruthy]) rfl

/-- Claim C10: a measurement whose components are all exactly zero is treated
identically to the all-`None` no-signal sentinel, because `run` tests the
truthiness of the error components: the cycle stores the error cache,
publishes telemetry, and increments the iteration counter, and it skips the
PID updates, the slew commands, and the convergence accounting. -/
theorem trackerCycle_zero_error (cfg : TrackerConfig) (s : TrackerState)
    (inp : CycleInput) (m : Meas) (hm : inp.measurement = some m)
    (h0 : m.err Axis.axis0 = 0) (h1 : m.err Axis.axis1 = 0)
    (hmag : m.magnitude = 0) :
    trackerCycle cfg s inp =
      { s with errCache := ⟨some 0, some 0, some 0⟩,
               numIterations := s.numIterations + 1 } ∧
    trackerCycle cfg s { inp with measurement := none } =
      { s with errCache := ⟨none, none, none⟩,
               numIterations := s.numIterations + 1 } := by
  constructor
  · cases hcb : cfg.callbackRegistered && inp.callbackResult <;>
      simp [trackerCycle, hm, hcb, measToError, anyError, isTruthy, h0, h1,
        hmag, finishControlCycle]
  · cases hcb : cfg.callbackRegistered && inp.callbackResult <;>
      simp [trackerCycle, hcb, measToError, anyError, isTruthy,
        finishControlCycle]

/-- Claim C10 witness: the all-zero measurement cycle on a fresh tracker. -/
theorem trackerCycle_zero_error_witness :
    trackerCycle cfgC1 trackerInit inpZero =
      { trackerInit with errCache := ⟨some 0, some 0, some 0⟩,
                         numIterations := trackerInit.numIterations + 1 } ∧
    trackerCycle cfgC1 trackerInit { inpZero with measurement := none } =
      { trackerInit with errCache := ⟨none, none, none⟩,
                         numIterations := trackerInit.numIterations + 1 } :=
  trackerCycle_zero_error cfgC1 trackerInit inpZero measZero rfl rfl rfl rfl

/-- Claim C8 witness: a filter holding one 0.1 s sample, window 0.2 s, fed a
new sample of value 7 and period 0.1 s. -/
theorem mafAdvance_window_bound_witness :
    (mafAdvance (1/5) ⟨[3], [1/10]⟩ 7 (1/10)).1.samplePeriods.sum
      ≤ 1/5 + 1/10 ∧
    ((1 : ℚ)/10 ≤ 1/5 →
      (mafAdvance (1/5) (mafReset ⟨[3], [1/10]⟩) 7 (1/10)).2 = 7) :=
  mafAdvance_window_bound_and_single_sample (1/5) 7 (1/10) ⟨[3], [1/10]⟩
    (by norm_num) (by norm_num)

/-! ## Mount-model lemmas -/

theorem deg2rad_rad2deg (x : ℝ) : deg2rad (rad2deg x) = x := by
  unfold deg2rad rad2deg
  have h := Real.pi_ne_zero
  field_simp

theorem cosd_rad2deg (x : ℝ) : cosd (rad2deg x) = Real.cos x := by
  unfold cosd
  rw [deg2rad_rad2deg]

theorem sind_rad2deg (x : ℝ) : sind (rad2deg x) = Real.sin x := by
  unfold sind
  rw [deg2rad_rad2deg]

theorem cosd_neg (x : ℝ) : cosd (-x) = cosd x := by
  unfold cosd deg2rad
  rw [neg_mul, Real.cos_neg]

theorem sind_neg (x : ℝ) : sind (-x) = -sind x := by
  unfold sind deg2rad
  rw [neg_mul, Real.sin_neg]

theorem cosd_sub (a b : ℝ) : cosd (a - b) = cosd a * cosd b + sind a * sind b := by
  unfold cosd sind deg2rad
  rw [sub_mul, Real.cos_sub]

theorem sind_sub (a b : ℝ) : sind (a - b) = sind a * cosd b - cosd a * sind b := by
  unfold cosd sind deg2rad
  rw [sub_mul, Real.sin_sub]

theorem cosd_add_int (x : ℝ) (k : ℤ) : cosd (x + 360 * k) = cosd x := by
  unfold cosd deg2rad
  have h : (x + 360 * (k : ℝ)) * (Real.pi / 180) =
      x * (Real.pi / 180) + (k : ℝ) * (2 * Real.pi) := by ring
  rw [h, Real.cos_add_int_mul_two_pi]

theorem sind_add_int (x : ℝ) (k : ℤ) : sind (x + 360 * k) = sind x := by
  unfold sind deg2rad
  have h : (x + 360 * (k : ℝ)) * (Real.pi / 180) =
      x * (Real.pi / 180) + (k : ℝ) * (2 * Real.pi) := by ring
  rw [h, Real.sin_add_int_mul_two_pi]

theorem cosd_ninety : cosd 90 = 0 := by
  unfold cosd deg2rad
  have h : (90 : ℝ) * (Real.pi / 180) = Real.pi / 2 := by ring
  rw [h, Real.cos_pi_div_two]

theorem sphToCart_add_int (x lat : ℝ) (k : ℤ) :
    sphToCart (x + 360 * k) lat = sphToCart x lat := by
  unfold sphToCart
  rw [cosd_add_int, sind_add_int]

theorem sphToCart_shift (lon1 lon2 lat : ℝ)
    (h : ∃ k : ℤ, lon1 = lon2 + 360 * k) :
    sphToCart lon1 lat = sphToCart lon2 lat := by
  obtain ⟨k, hk⟩ := h
  rw [hk, sphToCart_add_int]

theorem sphToCart_north_pole (lon : ℝ) : sphToCart lon 90 = sphToCart 0 90 := by
  unfold sphToCart
  rw [cosd_ninety]
  simp

theorem sphToCart_south_pole (lon : ℝ) :
    sphToCart lon (-90) = sphToCart 0 (-90) := by
  unfold sphToCart
  rw [cosd_neg, cosd_ninety]
  simp

theorem wrap360_add_int (x : ℝ) (k : ℤ) : wrap360 (x + 360 * k) = wrap360 x := by
  unfold wrap360
  have h : (x + 360 * (k : ℝ)) / 360 = x / 360 + k := by
    field_simp
    ring
  rw [h, Int.floor_add_int]
  push_cast
  ring

theorem wrap360_sub_int (x : ℝ) : ∃ k : ℤ, wrap360 x = x + 360 * k := by
  refine ⟨-⌊x / 360⌋, ?_⟩
  unfold wrap360
  push_cast
  ring

theorem wrap360_nonneg (x : ℝ) : 0 ≤ wrap360 x := by
  have h : wrap360 x = 360 * Int.fract (x / 360) := by
    unfold wrap360 Int.fract
    ring
  rw [h]
  have := Int.fract_nonneg (x / 360)
  linarith

theorem wrap360_lt (x : ℝ) : wrap360 x < 360 := by
  have h : wrap360 x = 360 * Int.fract (x / 360) := by
    unfold wrap360 Int.fract
    ring
  rw [h]
  have := Int.fract_lt_one (x / 360)
  linarith

theorem wrap360_eq_self (x : ℝ) (h0 : 0 ≤ x) (h1 : x < 360) : wrap360 x = x := by
  unfold wrap360
  have hf : ⌊x / 360⌋ = 0 := by
    rw [Int.floor_eq_zero_iff]
    constructor
    · positivity
    · rw [div_lt_one (by norm_num : (0:ℝ) < 360)]
      exact h1
  rw [hf]
  push_cast
  ring

theorem wrap360_wrap (x : ℝ) : wrap360 (wrap360 x) = wrap360 x :=
  wrap360_eq_self _ (wrap360_nonneg x) (wrap360_lt x)

theorem wrap360_wrap_cancel (x off : ℝ) :
    wrap360 (wrap360 (x + off) - off) = wrap360 x := by
  have h : wrap360 (x + off) - off = x + 360 * ((-⌊(x + off) / 360⌋ : ℤ) : ℝ) := by
    unfold wrap360
    push_cast
    ring
  rw [h]
  exact_mod_cast wrap360_add_int x (-⌊(x + off) / 360⌋)

theorem dot3_sphToCart (lon lat : ℝ) :
    dot3 (sphToCart lon lat) (sphToCart lon lat) = 1 := by
  unfold dot3 sphToCart cosd sind
  have h1 := Real.sin_sq_add_cos_sq (deg2rad lon)
  have h2 := Real.sin_sq_add_cos_sq (deg2rad lat)
  linear_combination Real.cos (deg2rad lat) ^ 2 * h1 + h2

theorem dot3_rot (θ : ℝ) (a v : Vec3) (ha : dot3 a a = 1) :
    dot3 (rotAboutAxis θ a v) (rotAboutAxis θ a v) = dot3 v v := by
  have h2 := Real.sin_sq_add_cos_sq (deg2rad θ)
  unfold dot3 at ha ⊢
  unfold rotAboutAxis dot3 cosd sind
  linear_combination
    ((v.x * v.x + v.y * v.y + v.z * v.z) -
        (a.x * v.x + a.y * v.y + a.z * v.z) ^ 2) * h2 +
      ((v.x * v.x + v.y * v.y + v.z * v.z) * Real.sin (deg2rad θ) ^ 2 +
        (a.x * v.x + a.y * v.y + a.z * v.z) ^ 2 *
          (1 - Real.cos (deg2rad θ)) ^ 2) * ha

theorem rot_neg_rot (θ : ℝ) (a v : Vec3) (ha : dot3 a a = 1) :
    rotAboutAxis (-θ) a (rotAboutAxis θ a v) = v := by
  have h2 := Real.sin_sq_add_cos_sq (deg2rad θ)
  unfold dot3 at ha
  ext
  · show (rotAboutAxis (-θ) a (rotAboutAxis θ a v)).x = v.x
    unfold rotAboutAxis dot3
    rw [cosd_neg, sind_neg]
    unfold cosd sind
    linear_combination
      (v.x - (a.x * v.x + a.y * v.y + a.z * v.z) * a.x) * h2 +
        (v.x * Real.sin (deg2rad θ) ^ 2 +
          (a.x * v.x + a.y * v.y + a.z * v.z) * a.x *
            (1 - Real.cos (deg2rad θ)) ^ 2) * ha
  · show (rotAboutAxis (-θ) a (rotAboutAxis θ a v)).y = v.y
    unfold rotAboutAxis dot3
    rw [cosd_neg, sind_neg]
    unfold cosd sind
    linear_combination
      (v.y - (a.x * v.x + a.y * v.y + a.z * v.z) * a.y) * h2 +
        (v.y * Real.sin (deg2rad θ) ^ 2 +
          (a.x * v.x + a.y * v.y + a.z * v.z) * a.y *
            (1 - Real.cos (deg2rad θ)) ^ 2) * ha
  · show (rotAboutAxis (-θ) a (rotAboutAxis θ a v)).z = v.z
    unfold rotAboutAxis dot3
    rw [cosd_neg, sind_neg]
    unfold cosd sind
    linear_combination
      (v.z - (a.x * v.x + a.y * v.y + a.z * v.z) * a.z) * h2 +
        (v.z * Real.sin (deg2rad θ) ^ 2 +
          (a.x * v.x + a.y * v.y + a.z * v.z) * a.z *
            (1 - Real.cos (deg2rad θ)) ^ 2) * ha

theorem cartLat_mem (v : Vec3) : -90 ≤ cartLat v ∧ cartLat v ≤ 90 := by
  unfold cartLat rad2deg
  have h1 := Real.neg_pi_div_two_le_arcsin v.z
  have h2 := Real.arcsin_le_pi_div_two v.z
  have hpi := Real.pi_pos
  have hfrac : (0 : ℝ) < 180 / Real.pi := by positivity
  constructor
  · have := mul_le_mul_of_nonneg_right h1 (le_of_lt hfrac)
    have heq : -(Real.pi / 2) * (180 / Real.pi) = -90 := by
      field_simp
      ring
    linarith [heq ▸ this]
  · have := mul_le_mul_of_nonneg_right h2 (le_of_lt hfrac)
    have heq : Real.pi / 2 * (180 / Real.pi) = 90 := by
      field_simp
      ring
    linarith [heq ▸ this]

theorem sphToCart_cartLonLat (v : Vec3) (h : dot3 v v = 1) :
    sphToCart (cartLon v) (cartLat v) = v := by
  unfold dot3 at h
  have hz2 : 1 - v.z ^ 2 = v.x ^ 2 + v.y ^ 2 := by linear_combination -h
  have hz1 : -1 ≤ v.z := by nlinarith [sq_nonneg v.x, sq_nonneg v.y]
  have hz1' : v.z ≤ 1 := by nlinarith [sq_nonneg v.x, sq_nonneg v.y]
  unfold sphToCart cartLon cartLat
  rw [cosd_rad2deg, cosd_rad2deg, sind_rad2deg, sind_rad2deg,
    Real.cos_arcsin, Real.sin_arcsin hz1 hz1']
  by_cases hxy : (⟨v.x, v.y⟩ : ℂ) = 0
  · have hx : v.x = 0 := congrArg Complex.re hxy
    have hy : v.y = 0 := congrArg Complex.im hxy
    have hs : Real.sqrt (1 - v.z ^ 2) = 0 := by
      rw [hz2, hx, hy]
      simp
    rw [hxy, Complex.arg_zero, hs]
    ext <;> simp [hx, hy]
  · have habs : Complex.abs ⟨v.x, v.y⟩ = Real.sqrt (1 - v.z ^ 2) := by
      rw [Complex.abs_apply, Complex.normSq_mk, hz2]
      congr 1
      ring
    have habs_pos : 0 < Complex.abs ⟨v.x, v.y⟩ :=
      Complex.abs.pos hxy
    ext
    · show Real.sqrt (1 - v.z ^ 2) * Real.cos (Complex.arg ⟨v.x, v.y⟩) = v.x
      rw [Complex.cos_arg hxy, ← habs]
      field_simp
    · show Real.sqrt (1 - v.z ^ 2) * Real.sin (Complex.arg ⟨v.x, v.y⟩) = v.y
      rw [Complex.sin_arg, ← habs]
      field_simp
    · rfl

/-- Applying the encoder offsets (`Longitude`-wrapped) and removing them
again, then mapping encoders back to a spherical coordinate, returns the point
of the sphere one started from (the longitude possibly shifted by full turns,
and immaterial at the poles). -/
theorem encoder_roundtrip (lon lat off0 off1 : ℝ) (side : MeridianSide)
    (hlat1 : -90 ≤ lat) (hlat2 : lat ≤ 90) :
    sphToCart
      (encoderToSpherical
        ⟨wrap360 (wrap360 ((sphericalToEncoder lon lat side).enc0 + off0) - off0),
         wrap360 (wrap360 ((sphericalToEncoder lon lat side).enc1 + off1) - off1)⟩).1
      (encoderToSpherical
        ⟨wrap360 (wrap360 ((sphericalToEncoder lon lat side).enc0 + off0) - off0),
         wrap360 (wrap360 ((sphericalToEncoder lon lat side).enc1 + off1) - off1)⟩).2
      = sphToCart lon lat := by
  have hcancel : ∀ x y : ℝ, wrap360 (wrap360 (wrap360 x + y) - y) = wrap360 x :=
    fun x y => by rw [wrap360_wrap_cancel, wrap360_wrap]
  cases side with
  | east =>
    simp only [sphericalToEncoder]
    rw [hcancel, hcancel]
    have he1 : wrap360 (90 + lat) = 90 + lat :=
      wrap360_eq_self _ (by linarith) (by linarith)
    rw [he1]
    by_cases hl : lat < 90
    · have hcond : (90 : ℝ) + lat < 180 := by linarith
      simp only [encoderToSpherical, if_pos hcond]
      rw [show (90 : ℝ) + lat - 90 = lat from by ring]
      obtain ⟨k, hk⟩ := wrap360_sub_int (90 - lon)
      exact sphToCart_shift _ _ _ ⟨-k, by rw [hk]; push_cast; ring⟩
    · have hl90 : lat = 90 := le_antisymm hlat2 (not_lt.mp hl)
      subst hl90
      have hcond : ¬ ((90 : ℝ) + 90 < 180) := by norm_num
      simp only [encoderToSpherical, if_neg hcond]
      rw [show (270 : ℝ) - (90 + 90) = 90 from by norm_num]
      rw [sphToCart_north_pole]
      exact (sphToCart_north_pole lon).symm
  | west =>
    simp only [sphericalToEncoder]
    rw [hcancel, hcancel]
    by_cases hl : -90 < lat
    · have he1 : wrap360 (270 - lat) = 270 - lat :=
        wrap360_eq_self _ (by linarith) (by linarith)
      rw [he1]
      have hcond : ¬ ((270 : ℝ) - lat < 180) := by
        push_neg
        linarith
      simp only [encoderToSpherical, if_neg hcond]
      rw [show (270 : ℝ) - (270 - lat) = lat from by ring]
      obtain ⟨k, hk⟩ := wrap360_sub_int (270 - lon)
      exact sphToCart_shift _ _ _ ⟨-k, by rw [hk]; push_cast; ring⟩
    · have hl90 : lat = -90 := le_antisymm (not_lt.mp hl) hlat1
      subst hl90
      have h360 : wrap360 (270 - (-90)) = 0 := by
        rw [show (270 : ℝ) - (-90) = 0 + 360 * ((1 : ℤ) : ℝ) from by norm_num]
        rw [wrap360_add_int]
        exact wrap360_eq_self 0 le_rfl (by norm_num)
      rw [h360]
      have hcond : (0 : ℝ) < 180 := by norm_num
      simp only [encoderToSpherical, if_pos hcond]
      rw [show (0 : ℝ) - 90 = -90 from by norm_num]
      rw [sphToCart_south_pole]
      exact (sphToCart_south_pole lon).symm

/-- Equal points of the sphere stay equal after the hour-angle reflection
`lon ↦ st − lon` of the longitude. -/
theorem sphToCart_sub_congr (st lon1 lat1 lon2 lat2 : ℝ)
    (h : sphToCart lon1 lat1 = sphToCart lon2 lat2) :
    sphToCart (st - lon1) lat1 = sphToCart (st - lon2) lat2 := by
  have hx := congrArg Vec3.x h
  have hy := congrArg Vec3.y h
  have hz := congrArg Vec3.z h
  simp only [sphToCart] at hx hy hz
  ext
  · show cosd lat1 * cosd (st - lon1) = cosd lat2 * cosd (st - lon2)
    rw [cosd_sub, cosd_sub]
    linear_combination cosd st * hx + sind st * hy
  · show cosd lat1 * sind (st - lon1) = cosd lat2 * sind (st - lon2)
    rw [sind_sub, sind_sub]
    linear_combination sind st * hx - cosd st * hy
  · exact hz

/-- Claim C4: for every sky coordinate at least 1° from the pole, every
meridian side and every time (sidereal time `st`), the round trip
`mount_to_world(world_to_mount(s, m, t), t)` returns exactly the sky position
`s` (as a direction on the celestial sphere — so in particular within
1 arcsecond). -/
theorem mountModel_roundtrip (p : ModelParameters) (ra dec st : ℝ)
    (side : MeridianSide) (hdec : |dec| ≤ 89) :
    sphToCart (mountToWorld p (worldToMount p ra dec side st) st).1
      (mountToWorld p (worldToMount p ra dec side st) st).2 =
    sphToCart ra dec := by
  have ha : dot3 (rotAxisVec p.poleRotAxisLon) (rotAxisVec p.poleRotAxisLon)
      = 1 := dot3_sphToCart _ _
  have hc0 : dot3 (sphToCart (st - ra) dec) (sphToCart (st - ra) dec) = 1 :=
    dot3_sphToCart _ _
  simp only [mountToWorld, worldToMount, tipAxis]
  rw [neg_neg]
  set u := rotAboutAxis (-p.poleRotAngle) (rotAxisVec p.poleRotAxisLon)
    (sphToCart (st - ra) dec) with hu_def
  have hu : dot3 u u = 1 := by
    rw [hu_def, dot3_rot _ _ _ ha, hc0]
  obtain ⟨hlat1, hlat2⟩ := cartLat_mem u
  rw [encoder_roundtrip (cartLon u) (cartLat u) p.axis0Offset p.axis1Offset
    side hlat1 hlat2]
  rw [sphToCart_cartLonLat u hu]
  have hrr : rotAboutAxis p.poleRotAngle (rotAxisVec p.poleRotAxisLon) u =
      sphToCart (st - ra) dec := by
    rw [hu_def]
    have h := rot_neg_rot (-p.poleRotAngle) (rotAxisVec p.poleRotAxisLon)
      (sphToCart (st - ra) dec) ha
    rw [neg_neg] at h
    exact h
  have hW : dot3 (rotAboutAxis p.poleRotAngle (rotAxisVec p.poleRotAxisLon) u)
      (rotAboutAxis p.poleRotAngle (rotAxisVec p.poleRotAxisLon) u) = 1 := by
    rw [hrr]
    exact hc0
  have hfinal : sphToCart
      (cartLon (rotAboutAxis p.poleRotAngle (rotAxisVec p.poleRotAxisLon) u))
      (cartLat (rotAboutAxis p.poleRotAngle (rotAxisVec p.poleRotAxisLon) u))
      = sphToCart (st - ra) dec := by
    rw [sphToCart_cartLonLat _ hW, hrr]
  rw [sphToCart_sub_congr st _ _ _ _ hfinal,
    show st - (st - ra) = ra from by ring]

/-- Claim C4 witness: identity model parameters, RA 30°, Dec 0°, east side,
sidereal time 100°. -/
theorem mountModel_roundtrip_witness :
    sphToCart
      (mountToWorld ⟨0, 0, 0, 0⟩
        (worldToMount ⟨0, 0, 0, 0⟩ 30 0 MeridianSide.east 100) 100).1
      (mountToWorld ⟨0, 0, 0, 0⟩
        (worldToMount ⟨0, 0, 0, 0⟩ 30 0 MeridianSide.east 100) 100).2 =
    sphToCart 30 0 :=
  mountModel_roundtrip ⟨0, 0, 0, 0⟩ 30 0 100 MeridianSide.east (by norm_num)

end Track
